import Mathlib

/-!
Verification of the SCORM-cloud manifest resolution engine and runtime
element validator against its natural-language specification.

The definitions below are a shallow embedding of `src/manifest.rs`,
`src/runtime.rs` and the per-pair filtering loop of `rt_commit` in
`src/routes.rs`:

* the quick_xml tokenizer is modelled by an explicit list of `XmlEvent`s
  (start tag, self-closing tag, end tag), each carrying its raw name and
  its attribute list as already-unescaped key/value string pairs;
  tokenizer failures (malformed XML) are outside the embedding;
* Rust's `HashMap<String, ResourceInfo>` is modelled as an association
  list with map semantics for `get`/`insert`/`remove`/`entry`; its
  iteration order (used only by `first_resource_href`) is unspecified in
  Rust, so it is modelled by an explicit `order : List String` parameter
  that enumerates the keys in some order;
* Rust's `String::len` is the UTF-8 byte length, modelled by `rust_len`.
-/

namespace ScormCloud

/-- One quick_xml event as consumed by `parse_manifest`'s loop:
`start`/`emptyTag` carry the raw tag name and the attribute list
(keys may carry namespace prefixes such as "adlcp:scormtype"). -/
inductive XmlEvent where
  | start (name : String) (attrs : List (String × String))
  | emptyTag (name : String) (attrs : List (String × String))
  | endTag (name : String)
  deriving DecidableEq, Repr

/-- Embeds `ResourceInfo` from `src/manifest.rs` (derives `Default`). -/
structure ResourceInfo where
  href : Option String := none
  files : List String := []
  scormtype : Option String := none
  deriving DecidableEq, Repr

/-- Embeds `ParsedManifest` from `src/manifest.rs`. -/
structure ParsedManifest where
  default_launch : String
  scos : List (String × String × Option String)
  deriving DecidableEq, Repr

/-- Embeds `MfErr` from `src/manifest.rs`. -/
inductive MfErr where
  | Missing
  | Parse
  deriving DecidableEq, Repr

/-- Embeds `local_name` / the inline End-tag name handling in
`src/manifest.rs`: Rust splits the name on the colon character and keeps
the last segment (the whole string when there is no colon). -/
def last_segment : List Char → List Char → List Char
  | [], cur => cur.reverse
  | c :: rest, cur => if c = ':' then last_segment rest [] else last_segment rest (c :: cur)

/-- `local_name` of `src/manifest.rs` (also used for End-tag names). -/
def local_name (s : String) : String :=
  String.mk (last_segment s.data [])

/-- Embeds `get_attr` of `src/manifest.rs`: first attribute whose key's
local part (after the last colon) equals `key_local`.  Attribute values
are modelled as already unescaped. -/
def get_attr (attrs : List (String × String)) (key_local : String) : Option String :=
  (attrs.find? (fun a => local_name a.1 == key_local)).map (·.2)

/-- Embeds `get_ns_attr` of `src/manifest.rs`: first attribute whose key
is exactly `ns ++ ":" ++ key`. -/
def get_ns_attr (attrs : List (String × String)) (ns key : String) : Option String :=
  (attrs.find? (fun a => a.1 == ns ++ ":" ++ key)).map (·.2)

/-- Association-list model of `HashMap::get`. -/
def mapGet (m : List (String × ResourceInfo)) (k : String) : Option ResourceInfo :=
  (m.find? (fun p => p.1 == k)).map (·.2)

/-- Association-list model of `HashMap::remove` (drops the entry for `k`). -/
def mapRemove (m : List (String × ResourceInfo)) (k : String) : List (String × ResourceInfo) :=
  m.filter (fun p => !(p.1 == k))

/-- Association-list model of `HashMap::insert`.  The position of the new
entry in the list is irrelevant to the embedding: lookups go through
`mapGet` and iteration order is an explicit parameter everywhere. -/
def mapInsert (m : List (String × ResourceInfo)) (k : String) (v : ResourceInfo) :
    List (String × ResourceInfo) :=
  mapRemove m k ++ [(k, v)]

/-- Model of `resources.entry(res_id).or_default().files.push(href)`. -/
def mapPushFile (m : List (String × ResourceInfo)) (k : String) (h : String) :
    List (String × ResourceInfo) :=
  match mapGet m k with
  | some info => mapInsert m k { info with files := info.files ++ [h] }
  | none => mapInsert m k { href := none, files := [h], scormtype := none }

/-- One recorded item: `(identifier, identifierref, parameters, org_id)`
as pushed onto `items` in `parse_manifest`. -/
structure ItemRec where
  identifier : String
  identifierref : String
  parameters : Option String
  org : Option String
  deriving DecidableEq, Repr

/-- The mutable locals of `parse_manifest`'s streaming loop. -/
structure PState where
  resources : List (String × ResourceInfo)
  items : List ItemRec
  current_res_id : Option String
  in_organizations : Bool
  default_org_id : Option String
  current_org_id : Option String
  first_item_ref_in_default_org : Option String
  first_item_ref_any : Option String
  deriving DecidableEq, Repr

/-- Initial loop state of `parse_manifest`. -/
def initState : PState :=
  { resources := [], items := [], current_res_id := none, in_organizations := false,
    default_org_id := none, current_org_id := none,
    first_item_ref_in_default_org := none, first_item_ref_any := none }

/-- The shared `<resource>` attribute handling of the `Start` and `Empty`
arms of `parse_manifest`: merge href/scormtype attributes into the
existing entry (fetch-or-default, mutate, reinsert). -/
def resourceMerge (resources : List (String × ResourceInfo))
    (attrs : List (String × String)) (id : String) : ResourceInfo :=
  let info := (mapGet resources id).getD {}
  let info := match get_attr attrs "href" with
    | some h => { info with href := some h }
    | none => info
  match (get_attr attrs "scormtype").orElse (fun _ => get_ns_attr attrs "adlcp" "scormtype") with
  | some st => { info with scormtype := some st }
  | none => info

/-- One iteration of `parse_manifest`'s event loop (`src/manifest.rs`
lines 85–205), transliterated arm by arm. -/
def step (s : PState) (e : XmlEvent) : PState :=
  match e with
  | .start name attrs =>
    let n := local_name name
    if n = "organizations" then
      { s with in_organizations := true, default_org_id := get_attr attrs "default" }
    else if n = "organization" then
      { s with current_org_id := get_attr attrs "identifier" }
    else if n = "item" then
      match get_attr attrs "identifier", get_attr attrs "identifierref" with
      | some id, some iref =>
        let parameters := get_attr attrs "parameters"
        let org_for_item := s.current_org_id
        let first_any :=
          if s.first_item_ref_any.isNone then some iref else s.first_item_ref_any
        let is_default_org : Bool :=
          match s.default_org_id, org_for_item with
          | some d, some cur => d == cur
          | none, some _ => true
          | _, _ => false
        let first_def :=
          if is_default_org && s.first_item_ref_in_default_org.isNone then some iref
          else s.first_item_ref_in_default_org
        { s with first_item_ref_any := first_any,
                 first_item_ref_in_default_org := first_def,
                 items := s.items ++ [⟨id, iref, parameters, org_for_item⟩] }
      | _, _ => s
    else if n = "resource" then
      match get_attr attrs "identifier" with
      | some id =>
        { s with resources := mapInsert s.resources id (resourceMerge s.resources attrs id),
                 current_res_id := some id }
      | none => s
    else if n = "file" then
      match s.current_res_id, get_attr attrs "href" with
      | some res_id, some href => { s with resources := mapPushFile s.resources res_id href }
      | _, _ => s
    else s
  | .emptyTag name attrs =>
    let n := local_name name
    if n = "resource" then
      match get_attr attrs "identifier" with
      | some id =>
        { s with resources := mapInsert s.resources id (resourceMerge s.resources attrs id) }
      | none => s
    else if n = "file" then
      match s.current_res_id, get_attr attrs "href" with
      | some res_id, some href => { s with resources := mapPushFile s.resources res_id href }
      | _, _ => s
    else s
  | .endTag name =>
    let n := local_name name
    if n = "organization" then { s with current_org_id := none }
    else if n = "organizations" then { s with in_organizations := false }
    else if n = "resource" then { s with current_res_id := none }
    else s

/-- The whole streaming pass of `parse_manifest`. -/
def runEvents (events : List XmlEvent) : PState :=
  events.foldl step initState

/-- Embeds `resolve_launch_href` of `src/manifest.rs`. -/
def resolve_launch_href (resources : List (String × ResourceInfo)) (identifierref : String) :
    Option String :=
  match mapGet resources identifierref with
  | none => none
  | some r =>
    match r.href with
    | some h => some h
    | none => r.files.head?

/-- Embeds `first_resource_href` of `src/manifest.rs`.  `order` is the
`HashMap` iteration order (unspecified in Rust): ids are looked up in
that order; an id absent from the table is skipped. -/
def first_resource_href (resources : List (String × ResourceInfo)) :
    List String → Option String
  | [] => none
  | id :: rest =>
    match mapGet resources id with
    | some r =>
      match r.href with
      | some h => some h
      | none =>
        match r.files.head? with
        | some f => some f
        | none => first_resource_href resources rest
    | none => first_resource_href resources rest

/-- The `chosen_item_ref` expression of `parse_manifest`
(`first_item_ref_in_default_org.or(first_item_ref_any).or_else(first_resource_href)`). -/
def choose_item_ref (s : PState) (order : List String) : Option String :=
  match s.first_item_ref_in_default_org with
  | some r => some r
  | none =>
    match s.first_item_ref_any with
    | some r => some r
    | none => first_resource_href s.resources order

/-- The SCO enumeration of `parse_manifest` (lines 222–228). -/
def build_scos (s : PState) : List (String × String × Option String) :=
  s.items.filterMap (fun it =>
    (resolve_launch_href s.resources it.identifierref).map
      (fun href => (it.identifier, href, it.parameters)))

/-- Embeds `parse_manifest` of `src/manifest.rs` at the tokenizer-event
level: the streaming pass followed by default-launch selection and SCO
enumeration.  `order` is the `HashMap` iteration order used by
`first_resource_href`. -/
def parse_manifest (events : List XmlEvent) (order : List String) :
    Except MfErr ParsedManifest :=
  let st := runEvents events
  match choose_item_ref st order with
  | none => .error .Parse
  | some cref =>
    match resolve_launch_href st.resources cref with
    | some h => .ok { default_launch := h, scos := build_scos st }
    | none =>
      match first_resource_href st.resources order with
      | some h => .ok { default_launch := h, scos := build_scos st }
      | none => .error .Parse

/-- The default launch field of a parse result, `none` on failure. -/
def launchOf (x : Except MfErr ParsedManifest) : Option String :=
  match x with
  | .ok pm => some pm.default_launch
  | .error _ => none

/-! ## Runtime element validator (`src/runtime.rs`) and the per-pair
filtering loop of `rt_commit` (`src/routes.rs`). -/

/-- Embeds `is_valid_element_12` of `src/runtime.rs`. -/
def is_valid_element_12 (el : String) : Bool :=
  el == "cmi.core.lesson_status" || el == "cmi.core.lesson_location" ||
  el == "cmi.core.score.raw" || el == "cmi.suspend_data" ||
  el == "cmi.core.session_time" || el == "cmi.core.exit"

/-- Embeds `max_len` of `src/runtime.rs`. -/
def max_len (el : String) : Nat :=
  if el = "cmi.suspend_data" then 4096 else 255

/-- Embeds `normalize_lesson_status` of `src/runtime.rs` (note the
source's sixth arm matches "not attempted", with a space). -/
def normalize_lesson_status (v : String) : Option String :=
  if v = "passed" then some "passed"
  else if v = "failed" then some "failed"
  else if v = "completed" then some "completed"
  else if v = "incomplete" then some "incomplete"
  else if v = "browsed" then some "browsed"
  else if v = "not attempted" then some "not attempted"
  else none

/-- UTF-8 byte width of one scalar value, as used by Rust's `String::len`. -/
def utf8_len (c : Char) : Nat :=
  if c.val < 0x80 then 1
  else if c.val < 0x800 then 2
  else if c.val < 0x10000 then 3
  else 4

/-- Rust's `String::len`: the UTF-8 byte length of the string. -/
def rust_len (s : String) : Nat :=
  s.data.foldl (fun n c => n + utf8_len c) 0

/-- The body of `rt_commit`'s per-pair loop (`src/routes.rs` lines
256–292), as a pure function: `none` means the pair is skipped
(`continue`), `some v` means the value `v` is persisted for the element.
Values arriving as JSON strings are modelled directly as strings. -/
def commit_pair (el : String) (value : String) : Option String :=
  if !is_valid_element_12 el then none
  else if rust_len value > max_len el then none
  else if el = "cmi.core.lesson_status" then
    some ((normalize_lesson_status value).getD "incomplete")
  else some value

/-- The whole per-pair loop of `rt_commit`: the persisted (element,
value) pairs, in submission order. -/
def commit_map (pairs : List (String × String)) : List (String × String) :=
  pairs.filterMap (fun p => (commit_pair p.1 p.2).map (fun v => (p.1, v)))

/-! ## Derived notions used by the theorems (not part of the source). -/

/-- Events that read and write only the organization-side loop state
(organization contexts, item table, first-reference trackers); events
with unrecognized names are no-ops and qualify as well. -/
def orgEvent : XmlEvent → Bool
  | .start n _ => !(local_name n == "resource") && !(local_name n == "file")
  | .emptyTag n _ => !(local_name n == "resource") && !(local_name n == "file")
  | .endTag n => !(local_name n == "resource")

/-- Events that read and write only the resource-side loop state (the
resource table and the currently open resource id); self-closing
organization/item tags are no-ops in the source, so any self-closing tag
qualifies. -/
def resEvent : XmlEvent → Bool
  | .start n _ =>
    !(local_name n == "organizations") && !(local_name n == "organization") &&
    !(local_name n == "item")
  | .emptyTag _ _ => true
  | .endTag n => !(local_name n == "organization") && !(local_name n == "organizations")

/-- The organization-side half of the loop state. -/
structure OrgPart where
  items : List ItemRec
  in_organizations : Bool
  default_org_id : Option String
  current_org_id : Option String
  first_item_ref_in_default_org : Option String
  first_item_ref_any : Option String
  deriving DecidableEq, Repr

/-- The resource-side half of the loop state. -/
structure ResPart where
  resources : List (String × ResourceInfo)
  current_res_id : Option String
  deriving DecidableEq, Repr

/-- Organization-side projection of the loop state. -/
def PState.orgPart (s : PState) : OrgPart :=
  ⟨s.items, s.in_organizations, s.default_org_id, s.current_org_id,
   s.first_item_ref_in_default_org, s.first_item_ref_any⟩

/-- Resource-side projection of the loop state. -/
def PState.resPart (s : PState) : ResPart :=
  ⟨s.resources, s.current_res_id⟩

/-- `true` when the event carries no empty `href` attribute value. -/
def event_hrefs_ne : XmlEvent → Bool
  | .start _ attrs =>
    match get_attr attrs "href" with
    | some h => !(h == "")
    | none => true
  | .emptyTag _ attrs =>
    match get_attr attrs "href" with
    | some h => !(h == "")
    | none => true
  | .endTag _ => true

/-- Every `href` attribute value appearing in the event stream is
non-empty. -/
def hrefs_nonempty (events : List XmlEvent) : Prop :=
  ∀ e ∈ events, event_hrefs_ne e = true

/-- Invariant: every href and every file recorded in the resource table
is a non-empty string. -/
def state_hrefs_ok (s : PState) : Prop :=
  ∀ id info, mapGet s.resources id = some info →
    (∀ h, info.href = some h → h ≠ "") ∧ (∀ f ∈ info.files, f ≠ "")

/-- Organization-side action of `step` (acts only on `OrgPart`). -/
def ostep (o : OrgPart) (e : XmlEvent) : OrgPart :=
  match e with
  | .start name attrs =>
    let n := local_name name
    if n = "organizations" then
      { o with in_organizations := true, default_org_id := get_attr attrs "default" }
    else if n = "organization" then
      { o with current_org_id := get_attr attrs "identifier" }
    else if n = "item" then
      match get_attr attrs "identifier", get_attr attrs "identifierref" with
      | some id, some iref =>
        let parameters := get_attr attrs "parameters"
        let org_for_item := o.current_org_id
        let first_any :=
          if o.first_item_ref_any.isNone then some iref else o.first_item_ref_any
        let is_default_org : Bool :=
          match o.default_org_id, org_for_item with
          | some d, some cur => d == cur
          | none, some _ => true
          | _, _ => false
        let first_def :=
          if is_default_org && o.first_item_ref_in_default_org.isNone then some iref
          else o.first_item_ref_in_default_org
        { o with first_item_ref_any := first_any,
                 first_item_ref_in_default_org := first_def,
                 items := o.items ++ [⟨id, iref, parameters, org_for_item⟩] }
      | _, _ => o
    else o
  | .emptyTag _ _ => o
  | .endTag name =>
    let n := local_name name
    if n = "organization" then { o with current_org_id := none }
    else if n = "organizations" then { o with in_organizations := false }
    else o

/-- Resource-side action of `step` (acts only on `ResPart`). -/
def rstep (r : ResPart) (e : XmlEvent) : ResPart :=
  match e with
  | .start name attrs =>
    let n := local_name name
    if n = "resource" then
      match get_attr attrs "identifier" with
      | some id =>
        { resources := mapInsert r.resources id (resourceMerge r.resources attrs id),
          current_res_id := some id }
      | none => r
    else if n = "file" then
      match r.current_res_id, get_attr attrs "href" with
      | some res_id, some href => { r with resources := mapPushFile r.resources res_id href }
      | _, _ => r
    else r
  | .emptyTag name attrs =>
    let n := local_name name
    if n = "resource" then
      match get_attr attrs "identifier" with
      | some id =>
        { r with resources := mapInsert r.resources id (resourceMerge r.resources attrs id) }
      | none => r
    else if n = "file" then
      match r.current_res_id, get_attr attrs "href" with
      | some res_id, some href => { r with resources := mapPushFile r.resources res_id href }
      | _, _ => r
    else r
  | .endTag name =>
    if local_name name = "resource" then { r with current_res_id := none }
    else r

/-! ## Concrete manifests used by counterexamples and witnesses. -/

/-- A plain one-organization, one-item, one-resource manifest. -/
def exBasic : List XmlEvent :=
  [.start "organizations" [("default", "A")],
   .start "organization" [("identifier", "A")],
   .start "item" [("identifier", "I1"), ("identifierref", "R1")],
   .endTag "item",
   .endTag "organization",
   .endTag "organizations",
   .emptyTag "resource" [("identifier", "R1"), ("href", "a.html")]]

/-- Item-less manifest in which the usable href of the first resource
(identifier "B", href "x.html") is itself the identifier of another
resource ("x.html", href "y.html"). -/
def exAlias : List XmlEvent :=
  [.emptyTag "resource" [("identifier", "B"), ("href", "x.html")],
   .emptyTag "resource" [("identifier", "x.html"), ("href", "y.html")]]

/-- A single resource whose `href` attribute is the empty string. -/
def exEmptyHref : List XmlEvent :=
  [.emptyTag "resource" [("identifier", "R"), ("href", "")]]

/-- The spec's duplicated-resource example: a first `<resource>` block
for "R" with no href and one file "a.js", then a second block for "R"
with href "index.html". -/
def exDupResource : List XmlEvent :=
  [.start "resource" [("identifier", "R")],
   .emptyTag "file" [("href", "a.js")],
   .endTag "resource",
   .emptyTag "resource" [("identifier", "R"), ("href", "index.html")]]

/-- One resolvable item ("I1" → "R1") and one item whose identifierref
("MISSING") names no resource. -/
def exDropped : List XmlEvent :=
  [.start "organizations" [],
   .start "organization" [("identifier", "A")],
   .start "item" [("identifier", "I0"), ("identifierref", "MISSING")],
   .endTag "item",
   .start "item" [("identifier", "I1"), ("identifierref", "R1")],
   .endTag "item",
   .endTag "organization",
   .endTag "organizations",
   .emptyTag "resource" [("identifier", "R1"), ("href", "a.html")]]

/-- No declared default organization; an item outside any organization
comes first, organization "A" is empty, organization "B" holds the first
in-organization item. -/
def exLaterOrg : List XmlEvent :=
  [.start "item" [("identifier", "I0"), ("identifierref", "R0")],
   .endTag "item",
   .start "organizations" [],
   .start "organization" [("identifier", "A")],
   .endTag "organization",
   .start "organization" [("identifier", "B")],
   .start "item" [("identifier", "I1"), ("identifierref", "R1")],
   .endTag "item",
   .endTag "organization",
   .endTag "organizations",
   .emptyTag "resource" [("identifier", "R0"), ("href", "zero.html")],
   .emptyTag "resource" [("identifier", "R1"), ("href", "one.html")]]

/-- Two item-less resources, both with usable hrefs: the tier-3 scan
result depends on the resource-table iteration order. -/
def exTwoResources : List XmlEvent :=
  [.emptyTag "resource" [("identifier", "A"), ("href", "a.html")],
   .emptyTag "resource" [("identifier", "B"), ("href", "b.html")]]

/-- An organizations section: one organization holding one item. -/
def exOrgSection : List XmlEvent :=
  [.start "organizations" [],
   .start "organization" [("identifier", "A")],
   .start "item" [("identifier", "I1"), ("identifierref", "R1")],
   .endTag "item",
   .endTag "organization",
   .endTag "organizations"]

def exResSection : List XmlEvent :=
  [.emptyTag "resource" [("identifier", "R1"), ("href", "a.html")]]

/-- 4096 characters of U+00E9, each two UTF-8 bytes long. -/
def long_accent : String :=
  String.mk (List.replicate 4096 (Char.ofNat 233))

end ScormCloud

deriving instance DecidableEq for Except

namespace ScormCloud

theorem mapGet_mapRemove (m : List (String × ResourceInfo)) (k q : String) :
    mapGet (mapRemove m k) q = if q = k then none else mapGet m q := by
  induction m with
  | nil => simp [mapGet, mapRemove]
  | cons hd tl ih =>
    by_cases hh : hd.1 = k
    · have hrm : mapRemove (hd :: tl) k = mapRemove tl k := by
        simp [mapRemove, List.filter_cons, hh]
      rw [hrm, ih]
      by_cases hq : q = k
      · simp [hq]
      · have hne : ¬ ((hd.1 == q) = true) := by
          simp only [beq_iff_eq, hh]
          exact fun hkq => hq hkq.symm
        simp only [if_neg hq, mapGet]
        rw [List.find?_cons_of_neg (p := fun x : String × ResourceInfo => x.1 == q) _ hne]
    · have hrm : mapRemove (hd :: tl) k = hd :: mapRemove tl k := by
        simp [mapRemove, List.filter_cons, hh]
      rw [hrm]
      by_cases hdq : hd.1 = q
      · have hq : ¬ q = k := fun h => hh (by rw [hdq, h])
        have hpos : (hd.1 == q) = true := by simp [beq_iff_eq, hdq]
        simp only [mapGet, if_neg hq]
        rw [List.find?_cons_of_pos (p := fun x : String × ResourceInfo => x.1 == q) _ hpos,
          List.find?_cons_of_pos (p := fun x : String × ResourceInfo => x.1 == q) _ hpos]
      · have hne : ¬ ((hd.1 == q) = true) := by simp [beq_iff_eq, hdq]
        simp only [mapGet]
        rw [List.find?_cons_of_neg (p := fun x : String × ResourceInfo => x.1 == q) _ hne,
          List.find?_cons_of_neg (p := fun x : String × ResourceInfo => x.1 == q) _ hne]
        simpa only [mapGet] using ih

theorem mapGet_mapInsert (m : List (String × ResourceInfo)) (k : String) (v : ResourceInfo)
    (q : String) :
    mapGet (mapInsert m k v) q = if q = k then some v else mapGet m q := by
  unfold mapInsert
  by_cases hq : q = k
  · subst hq
    have hnone : (mapRemove m q).find? (fun p => p.1 == q) = none := by
      have := mapGet_mapRemove m q q
      simp only [if_pos rfl, mapGet] at this
      exact Option.map_eq_none'.mp this
    simp [mapGet, List.find?_append, hnone, Option.or, List.find?]
  · have hgoal : mapGet (mapRemove m k) q = mapGet m q := by
      rw [mapGet_mapRemove]; simp [hq]
    have hfalse : (k == q) = false := by
      simp only [beq_eq_false_iff_ne, ne_eq]
      exact fun h => hq h.symm
    have hone : mapGet [(k, v)] q = none := by
      simp [mapGet, List.find?, hfalse]
    simp only [mapGet, List.find?_append] at *
    rw [if_neg hq]
    cases hfind : (mapRemove m k).find? (fun p => p.1 == q) with
    | some p =>
      rw [hfind] at hgoal
      simp [Option.or, hgoal]
    | none =>
      rw [hfind] at hgoal
      simp [Option.or, List.find?, hfalse, ← hgoal]

theorem mapGet_mapPushFile (m : List (String × ResourceInfo)) (k h q : String) :
    mapGet (mapPushFile m k h) q =
      if q = k then
        some (match mapGet m k with
              | some info => { info with files := info.files ++ [h] }
              | none => { href := none, files := [h], scormtype := none })
      else mapGet m q := by
  unfold mapPushFile
  cases hm : mapGet m k <;> simp [mapGet_mapInsert, hm]

end ScormCloud

namespace ScormCloud

/-- C7 (amended): the set of accepted lesson-status values is exactly
passed, failed, completed, incomplete, browsed, and "not attempted"
(with a space, not the hyphenated "not-attempted" of the claim); every
accepted value is returned unchanged and every other string is
rejected. -/
theorem normalize_lesson_status_enum (s : String) :
    normalize_lesson_status s =
      if s ∈ (["passed", "failed", "completed", "incomplete", "browsed",
               "not attempted"] : List String)
      then some s else none := by
  unfold normalize_lesson_status
  split_ifs <;> simp_all

/-- C7 counterexample: the claimed member "not-attempted" is rejected by
the code; the code's sixth accepted string is "not attempted". -/
theorem normalize_lesson_status_hyphen :
    normalize_lesson_status "not-attempted" = none ∧
    normalize_lesson_status "not attempted" = some "not attempted" := by
  exact ⟨rfl, rfl⟩

/-- C2 counterexample: submitting lesson-status "unknown" is not dropped
as the claim states; it is persisted as "incomplete". -/
theorem commit_unknown_status_coerced :
    commit_pair "cmi.core.lesson_status" "unknown" = some "incomplete" := by
  rfl

/-- C2 (amended): a lesson-status value that fails the enum check is not
dropped — it is coerced to "incomplete" and persisted; all other
allow-listed pairs are persisted unchanged, and the commit processes
every submitted pair independently. -/
theorem commit_lesson_status_coerces :
    (∀ v : String, rust_len v ≤ 255 → normalize_lesson_status v = none →
      commit_pair "cmi.core.lesson_status" v = some "incomplete")
  ∧ (∀ el v : String, ¬ el = "cmi.core.lesson_status" → is_valid_element_12 el = true →
      rust_len v ≤ max_len el → commit_pair el v = some v)
  ∧ (∀ (l₁ l₂ : List (String × String)) (p : String × String),
      commit_map (l₁ ++ p :: l₂) = commit_map l₁ ++ commit_map [p] ++ commit_map l₂) := by
  refine ⟨?_, ?_, ?_⟩
  · intro v hlen hnorm
    simp [commit_pair, max_len, is_valid_element_12, hnorm, Nat.not_lt.mpr hlen]
  · intro el v hne hval hlen
    simp [commit_pair, hval, hne, Nat.not_lt.mpr hlen]
  · intro l₁ l₂ p
    cases h : commit_pair p.1 p.2 <;> simp [commit_map, List.filterMap_cons, h]

/-- C2 witness: coercion at the concrete unrecognized value "bogus". -/
theorem commit_lesson_status_coerces_witness :
    commit_pair "cmi.core.lesson_status" "bogus" = some "incomplete" :=
  commit_lesson_status_coerces.1 "bogus" (by decide) (by decide)

/-- C8 (amended): a pair is accepted exactly when the element is one of
the six allow-listed CMI 1.2 elements and the value's UTF-8 byte length
(not character count, as the claim states) is at most 4096 for suspend
data and 255 for every other allow-listed element. -/
theorem commit_pair_accepts_iff (el v : String) :
    (commit_pair el v).isSome = true ↔
      (is_valid_element_12 el = true ∧ rust_len v ≤ max_len el) := by
  unfold commit_pair
  split_ifs with h1 h2 h3 <;> simp_all

theorem foldl_utf8_replicate (n : Nat) (c : Char) :
    ∀ a : Nat, (List.replicate n c).foldl (fun m ch => m + utf8_len ch) a
      = a + n * utf8_len c := by
  induction n with
  | zero => intro a; simp
  | succ n ih =>
    intro a
    simp only [List.replicate_succ, List.foldl_cons, ih]
    ring

/-- C8 counterexample: a suspend-data value of exactly 4096 characters
(each two UTF-8 bytes) is rejected, refuting the claim that 4096
characters are always accepted: the limit is bytes, not characters. -/
theorem suspend_data_limit_is_bytes :
    commit_pair "cmi.suspend_data" long_accent = none ∧
    long_accent.data.length = 4096 := by
  have hlen : rust_len long_accent = 8192 := by
    show (List.replicate 4096 (Char.ofNat 233)).foldl (fun m ch => m + utf8_len ch) 0 = 8192
    rw [foldl_utf8_replicate]
    decide
  have hval : ¬ ((!is_valid_element_12 "cmi.suspend_data") = true) := by decide
  have hgt : rust_len long_accent > max_len "cmi.suspend_data" := by
    rw [hlen]; decide
  constructor
  · unfold commit_pair
    rw [if_neg hval, if_pos hgt]
  · show (List.replicate 4096 (Char.ofNat 233)).length = 4096
    exact List.length_replicate 4096 _

end ScormCloud

namespace ScormCloud

theorem parse_ok_scos (events : List XmlEvent) (order : List String) (pm : ParsedManifest)
    (h : parse_manifest events order = .ok pm) :
    pm.scos = build_scos (runEvents events) := by
  simp only [parse_manifest] at h
  split at h
  · simp at h
  · split at h
    · cases h; rfl
    · split at h
      · cases h; rfl
      · simp at h

/-- C1 (amended): the default launch path is selected in strict priority
order — (1) the first item reference recorded inside the default
organization, (2) the first item reference recorded anywhere, (3) the
usable href of the first resource in table iteration order — and when the
chosen item reference of tier 1 or 2 does not resolve, the resolver falls
back to the tier-3 scan; if nothing resolves, parsing fails.  Amendment
forced by `tier3_alias_counterexample`: the tier-3 href is itself looked
up again as a candidate reference, so when that href string coincides
with a resource identifier, that resource's launch resolution is used
instead of the href itself. -/
theorem default_launch_priority (events : List XmlEvent) (order : List String) :
    (∀ r h, (runEvents events).first_item_ref_in_default_org = some r →
      resolve_launch_href (runEvents events).resources r = some h →
      launchOf (parse_manifest events order) = some h)
  ∧ (∀ r h, (runEvents events).first_item_ref_in_default_org = none →
      (runEvents events).first_item_ref_any = some r →
      resolve_launch_href (runEvents events).resources r = some h →
      launchOf (parse_manifest events order) = some h)
  ∧ (∀ r, ((runEvents events).first_item_ref_in_default_org = some r ∨
        ((runEvents events).first_item_ref_in_default_org = none ∧
          (runEvents events).first_item_ref_any = some r)) →
      resolve_launch_href (runEvents events).resources r = none →
      launchOf (parse_manifest events order) =
        first_resource_href (runEvents events).resources order)
  ∧ (∀ h, (runEvents events).first_item_ref_in_default_org = none →
      (runEvents events).first_item_ref_any = none →
      first_resource_href (runEvents events).resources order = some h →
      launchOf (parse_manifest events order) =
        some ((resolve_launch_href (runEvents events).resources h).getD h))
  ∧ ((runEvents events).first_item_ref_in_default_org = none →
      (runEvents events).first_item_ref_any = none →
      first_resource_href (runEvents events).resources order = none →
      parse_manifest events order = .error .Parse) := by
  refine ⟨?_, ?_, ?_, ?_, ?_⟩
  · intro r h h1 h2
    simp [parse_manifest, choose_item_ref, launchOf, h1, h2]
  · intro r h h1 h2 h3
    simp [parse_manifest, choose_item_ref, launchOf, h1, h2, h3]
  · intro r hsel hres
    rcases hsel with h1 | ⟨h1, h2⟩
    · simp only [parse_manifest, choose_item_ref, h1, hres]
      cases hF : first_resource_href (runEvents events).resources order <;>
        simp [launchOf, hF]
    · simp only [parse_manifest, choose_item_ref, h1, h2, hres]
      cases hF : first_resource_href (runEvents events).resources order <;>
        simp [launchOf, hF]
  · intro h h1 h2 h3
    simp only [parse_manifest, choose_item_ref, h1, h2, h3]
    cases hres : resolve_launch_href (runEvents events).resources h <;>
      simp [launchOf, hres, h3]
  · intro h1 h2 h3
    simp [parse_manifest, choose_item_ref, h1, h2, h3]

/-- C1 counterexample: with no items and resources B ↦ href "x.html" and
"x.html" ↦ href "y.html", the tier-3 scan (order [B, "x.html"]) selects
"x.html", yet the parser returns default launch "y.html", not "x.html"
as the claim states. -/
theorem tier3_alias_counterexample :
    parse_manifest exAlias ["B", "x.html"] =
      .ok { default_launch := "y.html", scos := [] } ∧
    first_resource_href (runEvents exAlias).resources ["B", "x.html"] = some "x.html" ∧
    (runEvents exAlias).first_item_ref_in_default_org = none ∧
    (runEvents exAlias).first_item_ref_any = none := by
  exact ⟨rfl, rfl, rfl, rfl⟩

/-- C1 witness: tier 1 applied to a concrete manifest. -/
theorem default_launch_priority_witness :
    launchOf (parse_manifest exBasic ["R1"]) = some "a.html" :=
  (default_launch_priority exBasic ["R1"]).1 "R1" "a.html" rfl rfl

/-- C5: the scos list is exactly the recorded items, in source order,
filtered to those whose referenced resource resolves to a usable href
(direct href, else first nested file); unresolvable items are dropped,
and success or failure of the parse depends only on the default-launch
chain, never on the dropped items. -/
theorem sco_enumeration (events : List XmlEvent) (order : List String) :
    (∀ pm, parse_manifest events order = .ok pm →
      pm.scos = (runEvents events).items.filterMap (fun it =>
        (resolve_launch_href (runEvents events).resources it.identifierref).map
          (fun h => (it.identifier, h, it.parameters))))
  ∧ (∀ pm i h p, parse_manifest events order = .ok pm →
      ((i, h, p) ∈ pm.scos ↔ ∃ it ∈ (runEvents events).items,
        it.identifier = i ∧ it.parameters = p ∧
        resolve_launch_href (runEvents events).resources it.identifierref = some h))
  ∧ (parse_manifest events order = .error .Parse ↔
      (choose_item_ref (runEvents events) order = none ∨
        (∃ c, choose_item_ref (runEvents events) order = some c ∧
          resolve_launch_href (runEvents events).resources c = none ∧
          first_resource_href (runEvents events).resources order = none))) := by
  refine ⟨?_, ?_, ?_⟩
  · intro pm hpm
    exact parse_ok_scos events order pm hpm
  · intro pm i h p hpm
    rw [parse_ok_scos events order pm hpm]
    simp only [build_scos, List.mem_filterMap, Option.map_eq_some']
    constructor
    · rintro ⟨it, hit, v, hv, heq⟩
      obtain ⟨h1, h2, h3⟩ := Prod.mk.injEq .. ▸ heq
      exact ⟨it, hit, by simp_all⟩
    · rintro ⟨it, hit, h1, h2, h3⟩
      exact ⟨it, hit, h, h3, by simp_all⟩
  · simp only [parse_manifest]
    rcases hc : choose_item_ref (runEvents events) order with _ | c
    · simp [hc]
    · rcases hr : resolve_launch_href (runEvents events).resources c with _ | v
      · rcases hF : first_resource_href (runEvents events).resources order with _ | w <;>
          simp [hc, hr, hF]
      · simp [hc, hr]

/-- C5 witness: the scos equation on a manifest with one resolvable and
one unresolvable item. -/
theorem sco_enumeration_witness :
    (ParsedManifest.mk "a.html" [("I1", "a.html", none)]).scos =
      (runEvents exDropped).items.filterMap (fun it =>
        (resolve_launch_href (runEvents exDropped).resources it.identifierref).map
          (fun h => (it.identifier, h, it.parameters))) :=
  (sco_enumeration exDropped ["R1"]).1 _ rfl

/-- C9 (amended): the parse is deterministic in the manifest input up to
the resource-table iteration order: the scos list of a successful parse
never depends on the order, and whenever a tier-1 or tier-2 item
reference exists and resolves, the whole result is independent of the
order.  Amendment forced by `parse_depends_on_table_order`: when the
default launch falls through to the first-resource scan, the result
depends on the hash-map iteration order, which in Rust is not a function
of the input bytes. -/
theorem parse_deterministic_given_order (events : List XmlEvent) (o₁ o₂ : List String) :
    (∀ r h, ((runEvents events).first_item_ref_in_default_org = some r ∨
        ((runEvents events).first_item_ref_in_default_org = none ∧
          (runEvents events).first_item_ref_any = some r)) →
      resolve_launch_href (runEvents events).resources r = some h →
      parse_manifest events o₁ = parse_manifest events o₂)
  ∧ (∀ pm₁ pm₂, parse_manifest events o₁ = .ok pm₁ → parse_manifest events o₂ = .ok pm₂ →
      pm₁.scos = pm₂.scos) := by
  constructor
  · intro r h hsel hres
    rcases hsel with h1 | ⟨h1, h2⟩
    · simp [parse_manifest, choose_item_ref, h1, hres]
    · simp [parse_manifest, choose_item_ref, h1, h2, hres]
  · intro pm₁ pm₂ h₁ h₂
    rw [parse_ok_scos events o₁ pm₁ h₁, parse_ok_scos events o₂ pm₂ h₂]

/-- C9 counterexample: the same manifest bytes parsed under two
legitimate iteration orders of the same resource table yield different
ParsedManifest values, refuting determinism as claimed. -/
theorem parse_depends_on_table_order :
    parse_manifest exTwoResources ["A", "B"] ≠ parse_manifest exTwoResources ["B", "A"] ∧
    (["A", "B"] : List String).Perm ((runEvents exTwoResources).resources.map Prod.fst) ∧
    (["B", "A"] : List String).Perm ((runEvents exTwoResources).resources.map Prod.fst) := by
  exact ⟨by decide, by decide, by decide⟩

/-- C9 witness: order-independence on a concrete manifest whose tier-1
reference resolves. -/
theorem parse_deterministic_given_order_witness :
    parse_manifest exBasic ["R1"] = parse_manifest exBasic [] :=
  (parse_deterministic_given_order exBasic ["R1"] []).1 "R1" "a.html" (Or.inl rfl) rfl

/-- C4: duplicated resource blocks are merged, not rejected: a resource
event rewrites exactly its identifier's entry with the merged record
(href := the block's href if present, else the old href; files kept), a
file event appends to the open resource's file list, other entries are
untouched; the spec's two-block example merges to href "index.html",
files ["a.js"]. -/
theorem resource_blocks_merge :
    (∀ (s : PState) (name : String) (attrs : List (String × String)) (id : String),
      local_name name = "resource" → get_attr attrs "identifier" = some id →
      ∀ q, mapGet (step s (.start name attrs)).resources q =
        if q = id then some (resourceMerge s.resources attrs id) else mapGet s.resources q)
  ∧ (∀ (s : PState) (name : String) (attrs : List (String × String)) (id : String),
      local_name name = "resource" → get_attr attrs "identifier" = some id →
      ∀ q, mapGet (step s (.emptyTag name attrs)).resources q =
        if q = id then some (resourceMerge s.resources attrs id) else mapGet s.resources q)
  ∧ (∀ (s : PState) (name : String) (attrs : List (String × String)) (rid h : String),
      local_name name = "file" → s.current_res_id = some rid →
      get_attr attrs "href" = some h →
      ∀ q, mapGet (step s (.start name attrs)).resources q =
        if q = rid then some (match mapGet s.resources rid with
          | some info => { info with files := info.files ++ [h] }
          | none => ⟨none, [h], none⟩) else mapGet s.resources q)
  ∧ (∀ (resources : List (String × ResourceInfo)) (attrs : List (String × String))
        (id : String),
      (resourceMerge resources attrs id).href =
        ((get_attr attrs "href").orElse (fun _ => ((mapGet resources id).getD {}).href)) ∧
      (resourceMerge resources attrs id).files = ((mapGet resources id).getD {}).files)
  ∧ mapGet (runEvents exDupResource).resources "R" =
      some { href := some "index.html", files := ["a.js"], scormtype := none } := by
  refine ⟨?_, ?_, ?_, ?_, rfl⟩
  · intro s name attrs id hname hid q
    simp [step, hname, hid, mapGet_mapInsert]
  · intro s name attrs id hname hid q
    simp [step, hname, hid, mapGet_mapInsert]
  · intro s name attrs rid h hname hres hhref q
    simp [step, hname, hres, hhref, mapGet_mapPushFile]
  · intro resources attrs id
    unfold resourceMerge
    cases hh : get_attr attrs "href" <;>
      cases hs : (get_attr attrs "scormtype").orElse
        (fun _ => get_ns_attr attrs "adlcp" "scormtype") <;>
      simp [hh, hs, Option.orElse]

/-- C4 witness: the merge equation at a concrete resource event. -/
theorem resource_blocks_merge_witness :
    mapGet (step initState (.start "resource" [("identifier", "R"), ("href", "one.html")])).resources "R" =
      some (resourceMerge initState.resources [("identifier", "R"), ("href", "one.html")] "R") := by
  have := (resource_blocks_merge).1 initState "resource"
    [("identifier", "R"), ("href", "one.html")] "R" rfl rfl "R"
  simpa using this

/-- C6: evaluation at the failing input.  With no declared default
organization, organization A empty, organization B holding the first
in-organization item (ref "R1"), and an earlier item outside any
organization (ref "R0"), the code records the tier-1 candidate from the
later organization B and launches "one.html", whereas the claim (and the
source's own comment, manifest.rs line 110, "if no default declared,
treat first org as default") requires tier 1 to yield nothing and tier 2
to launch "zero.html". -/
theorem default_org_fallback_behavior :
    parse_manifest exLaterOrg ["R0", "R1"] =
      .ok { default_launch := "one.html",
            scos := [("I0", "zero.html", none), ("I1", "one.html", none)] } ∧
    (runEvents exLaterOrg).default_org_id = none ∧
    (runEvents exLaterOrg).first_item_ref_in_default_org = some "R1" ∧
    (runEvents exLaterOrg).first_item_ref_any = some "R0" := by
  exact ⟨rfl, rfl, rfl, rfl⟩

end ScormCloud

namespace ScormCloud

theorem resourceMerge_href_src (resources : List (String × ResourceInfo))
    (attrs : List (String × String)) (id : String) :
    (resourceMerge resources attrs id).href = get_attr attrs "href" ∨
    (resourceMerge resources attrs id).href = ((mapGet resources id).getD {}).href := by
  unfold resourceMerge
  cases hh : get_attr attrs "href" <;>
    cases hs : (get_attr attrs "scormtype").orElse
      (fun _ => get_ns_attr attrs "adlcp" "scormtype") <;>
    simp [hh, hs, Option.orElse]

theorem resourceMerge_files_eq (resources : List (String × ResourceInfo))
    (attrs : List (String × String)) (id : String) :
    (resourceMerge resources attrs id).files = ((mapGet resources id).getD {}).files := by
  unfold resourceMerge
  cases hh : get_attr attrs "href" <;>
    cases hs : (get_attr attrs "scormtype").orElse
      (fun _ => get_ns_attr attrs "adlcp" "scormtype") <;>
    simp [hh, hs, Option.orElse]

theorem insert_merge_hrefs_ok (s : PState) (attrs : List (String × String)) (id : String)
    (hs : state_hrefs_ok s) (he : ∀ h, get_attr attrs "href" = some h → h ≠ "")
    (m : List (String × ResourceInfo))
    (hm : m = mapInsert s.resources id (resourceMerge s.resources attrs id)) :
    ∀ q info, mapGet m q = some info →
      (∀ h, info.href = some h → h ≠ "") ∧ (∀ f ∈ info.files, f ≠ "") := by
  have hold : ∀ k, (∀ h, ((mapGet s.resources k).getD {}).href = some h → h ≠ "") ∧
      (∀ f ∈ ((mapGet s.resources k).getD {}).files, f ≠ "") := by
    intro k
    cases hk : mapGet s.resources k with
    | none => simp
    | some info => simpa using hs k info hk
  subst hm
  intro q info hq
  rw [mapGet_mapInsert] at hq
  by_cases hqid : q = id
  · rw [if_pos hqid] at hq
    injection hq with hq
    subst hq
    refine ⟨?_, ?_⟩
    · intro h hh
      rcases resourceMerge_href_src s.resources attrs id with hsrc | hsrc
      · exact he h (hsrc ▸ hh)
      · exact (hold id).1 h (hsrc ▸ hh)
    · intro f hf
      rw [resourceMerge_files_eq] at hf
      exact (hold id).2 f hf
  · rw [if_neg hqid] at hq
    exact hs q info hq

theorem push_file_hrefs_ok (s : PState) (rid h : String)
    (hs : state_hrefs_ok s) (hne : h ≠ "")
    (m : List (String × ResourceInfo)) (hm : m = mapPushFile s.resources rid h) :
    ∀ q info, mapGet m q = some info →
      (∀ w, info.href = some w → w ≠ "") ∧ (∀ f ∈ info.files, f ≠ "") := by
  subst hm
  intro q info hq
  rw [mapGet_mapPushFile] at hq
  by_cases hqid : q = rid
  · rw [if_pos hqid] at hq
    injection hq with hq
    subst hq
    cases hk : mapGet s.resources rid with
    | none =>
      simp only [hk]
      refine ⟨?_, ?_⟩
      · intro w hw
        simp at hw
      · intro f hf
        simp at hf
        subst hf
        exact hne
    | some info2 =>
      simp only [hk]
      have hinfo := hs rid info2 hk
      refine ⟨hinfo.1, ?_⟩
      · intro f hf
        simp at hf
        rcases hf with hf | hf
        · exact hinfo.2 f hf
        · subst hf
          exact hne
  · rw [if_neg hqid] at hq
    exact hs q info hq

theorem step_preserves_hrefs_ok (s : PState) (e : XmlEvent)
    (hs : state_hrefs_ok s) (he : event_hrefs_ne e = true) :
    state_hrefs_ok (step s e) := by
  cases e with
  | start name attrs =>
    have hef : ∀ h, get_attr attrs "href" = some h → h ≠ "" := by
      intro h hh
      simp only [event_hrefs_ne, hh] at he
      simpa using he
    by_cases h1 : local_name name = "organizations"
    · simp only [step, if_pos h1]
      exact hs
    by_cases h2 : local_name name = "organization"
    · simp only [step, if_neg h1, if_pos h2]
      exact hs
    by_cases h3 : local_name name = "item"
    · simp only [step, if_neg h1, if_neg h2, if_pos h3]
      cases hga : get_attr attrs "identifier" <;>
        cases hgb : get_attr attrs "identifierref" <;> exact hs
    by_cases h4 : local_name name = "resource"
    · simp only [step, if_neg h1, if_neg h2, if_neg h3, if_pos h4]
      cases hga : get_attr attrs "identifier" with
      | none => exact hs
      | some id => exact insert_merge_hrefs_ok s attrs id hs hef _ rfl
    by_cases h5 : local_name name = "file"
    · simp only [step, if_neg h1, if_neg h2, if_neg h3, if_neg h4, if_pos h5]
      cases hcr : s.current_res_id with
      | none => cases hga : get_attr attrs "href" <;> exact hs
      | some rid =>
        cases hga : get_attr attrs "href" with
        | none => exact hs
        | some href => exact push_file_hrefs_ok s rid href hs (hef href hga) _ rfl
    · simp only [step, if_neg h1, if_neg h2, if_neg h3, if_neg h4, if_neg h5]
      exact hs
  | emptyTag name attrs =>
    have hef : ∀ h, get_attr attrs "href" = some h → h ≠ "" := by
      intro h hh
      simp only [event_hrefs_ne, hh] at he
      simpa using he
    by_cases h1 : local_name name = "resource"
    · simp only [step, if_pos h1]
      cases hga : get_attr attrs "identifier" with
      | none => exact hs
      | some id => exact insert_merge_hrefs_ok s attrs id hs hef _ rfl
    by_cases h2 : local_name name = "file"
    · simp only [step, if_neg h1, if_pos h2]
      cases hcr : s.current_res_id with
      | none => cases hga : get_attr attrs "href" <;> exact hs
      | some rid =>
        cases hga : get_attr attrs "href" with
        | none => exact hs
        | some href => exact push_file_hrefs_ok s rid href hs (hef href hga) _ rfl
    · simp only [step, if_neg h1, if_neg h2]
      exact hs
  | endTag name =>
    by_cases h1 : local_name name = "organization"
    · simp only [step, if_pos h1]
      exact hs
    by_cases h2 : local_name name = "organizations"
    · simp only [step, if_neg h1, if_pos h2]
      exact hs
    by_cases h3 : local_name name = "resource"
    · simp only [step, if_neg h1, if_neg h2, if_pos h3]
      exact hs
    · simp only [step, if_neg h1, if_neg h2, if_neg h3]
      exact hs

theorem run_hrefs_ok (events : List XmlEvent) (hne : hrefs_nonempty events) :
    state_hrefs_ok (runEvents events) := by
  have hgen : ∀ (l : List XmlEvent) (s : PState), state_hrefs_ok s →
      (∀ e ∈ l, event_hrefs_ne e = true) → state_hrefs_ok (l.foldl step s) := by
    intro l
    induction l with
    | nil => intro s hsub _; exact hsub
    | cons e tl ih =>
      intro s hsub hall
      simp only [List.foldl_cons]
      exact ih (step s e) (step_preserves_hrefs_ok s e hsub (hall e (by simp)))
        (fun f hf => hall f (by simp [hf]))
  refine hgen events initState ?_ hne
  intro id info hq
  simp [initState, mapGet] at hq

theorem resolve_launch_href_ne_empty (s : PState) (hs : state_hrefs_ok s)
    (r v : String) (h : resolve_launch_href s.resources r = some v) : v ≠ "" := by
  unfold resolve_launch_href at h
  split at h
  · simp at h
  · rename_i info hm
    split at h
    · rename_i w hh
      injection h with h
      subst h
      exact (hs r info hm).1 w hh
    · exact (hs r info hm).2 v (List.mem_of_mem_head? h)

theorem first_resource_href_ne_empty (s : PState) (hs : state_hrefs_ok s) :
    ∀ (order : List String) (v : String),
      first_resource_href s.resources order = some v → v ≠ "" := by
  intro order
  induction order with
  | nil => intro v h; simp [first_resource_href] at h
  | cons id rest ih =>
    intro v h
    unfold first_resource_href at h
    split at h
    · rename_i info hm
      split at h
      · rename_i w hh
        injection h with h
        subst h
        exact (hs id info hm).1 w hh
      · rename_i hh
        split at h
        · rename_i f hf
          injection h with h
          subst h
          exact (hs id info hm).2 f (List.mem_of_mem_head? hf)
        · exact ih v h
    · exact ih v h

/-- C3 (amended): if every href attribute appearing in the manifest is
non-empty, the default launch of a successful parse is non-empty; and if
no item reference resolves and no resource has a usable href, parsing
fails.  Amendment forced by `empty_href_empty_default`: an empty href
attribute counts as usable and yields an empty default launch. -/
theorem default_launch_nonempty (events : List XmlEvent) (order : List String) :
    (hrefs_nonempty events → ∀ pm, parse_manifest events order = .ok pm →
      pm.default_launch ≠ "")
  ∧ (first_resource_href (runEvents events).resources order = none →
      (∀ r, ((runEvents events).first_item_ref_in_default_org = some r ∨
          (runEvents events).first_item_ref_any = some r) →
        resolve_launch_href (runEvents events).resources r = none) →
      parse_manifest events order = .error .Parse) := by
  constructor
  · intro hne pm hpm
    have hok := run_hrefs_ok events hne
    simp only [parse_manifest] at hpm
    split at hpm
    · simp at hpm
    · rename_i cref hcref
      split at hpm
      · rename_i v hv
        cases hpm
        exact resolve_launch_href_ne_empty (runEvents events) hok cref v hv
      · split at hpm
        · rename_i w hw
          cases hpm
          exact first_resource_href_ne_empty (runEvents events) hok order w hw
        · simp at hpm
  · intro hF hres
    simp only [parse_manifest]
    rcases h1 : (runEvents events).first_item_ref_in_default_org with _ | r1
    · rcases h2 : (runEvents events).first_item_ref_any with _ | r2
      · simp [choose_item_ref, h1, h2, hF]
      · simp [choose_item_ref, h1, h2, hres r2 (Or.inr h2), hF]
    · simp [choose_item_ref, h1, hres r1 (Or.inl h1), hF]

/-- C3 counterexample: a single resource whose href attribute is the
empty string parses successfully with an empty default launch, refuting
the claim that defaultLaunch is always non-empty on success. -/
theorem empty_href_empty_default :
    parse_manifest exEmptyHref ["R"] = .ok { default_launch := "", scos := [] } := by
  rfl

/-- C3 witness: non-empty default launch on a concrete manifest with
non-empty hrefs. -/
theorem default_launch_nonempty_witness :
    (ParsedManifest.mk "a.html" [("I1", "a.html", none)]).default_launch ≠ "" :=
  (default_launch_nonempty exBasic ["R1"]).1 (by unfold hrefs_nonempty; decide) _ rfl

end ScormCloud

namespace ScormCloud

theorem parts_ext (s t : PState) (ho : s.orgPart = t.orgPart) (hr : s.resPart = t.resPart) :
    s = t := by
  cases s
  cases t
  simp only [PState.orgPart, OrgPart.mk.injEq, PState.resPart, ResPart.mk.injEq] at ho hr
  obtain ⟨rfl, rfl, rfl, rfl, rfl, rfl⟩ := ho
  obtain ⟨rfl, rfl⟩ := hr
  rfl

theorem step_orgPart_of_orgEvent (e : XmlEvent) (he : orgEvent e = true) (s : PState) :
    (step s e).orgPart = ostep s.orgPart e := by
  obtain ⟨res, its, cri, ino, dfo, cur, fdo, fan⟩ := s
  cases e with
  | start name attrs =>
    obtain ⟨h4, h5⟩ : ¬ local_name name = "resource" ∧ ¬ local_name name = "file" := by
      simpa [orgEvent, Bool.and_eq_true, Bool.not_eq_true', beq_eq_false_iff_ne] using he
    by_cases h1 : local_name name = "organizations"
    · simp only [step, ostep, PState.orgPart, if_pos h1]
    by_cases h2 : local_name name = "organization"
    · simp only [step, ostep, PState.orgPart, if_neg h1, if_pos h2]
    by_cases h3 : local_name name = "item"
    · simp only [step, ostep, PState.orgPart, if_neg h1, if_neg h2, if_pos h3]
      cases hga : get_attr attrs "identifier" <;>
        cases hgb : get_attr attrs "identifierref" <;> rfl
    · simp only [step, ostep, PState.orgPart, if_neg h1, if_neg h2, if_neg h3, if_neg h4, if_neg h5]
  | emptyTag name attrs =>
    obtain ⟨h4, h5⟩ : ¬ local_name name = "resource" ∧ ¬ local_name name = "file" := by
      simpa [orgEvent, Bool.and_eq_true, Bool.not_eq_true', beq_eq_false_iff_ne] using he
    simp only [step, ostep, PState.orgPart, if_neg h4, if_neg h5]
  | endTag name =>
    have h3 : ¬ local_name name = "resource" := by
      simpa [orgEvent, Bool.not_eq_true', beq_eq_false_iff_ne] using he
    by_cases h1 : local_name name = "organization"
    · simp only [step, ostep, PState.orgPart, if_pos h1]
    by_cases h2 : local_name name = "organizations"
    · simp only [step, ostep, PState.orgPart, if_neg h1, if_pos h2]
    · simp only [step, ostep, PState.orgPart, if_neg h1, if_neg h2, if_neg h3]

theorem step_resPart_of_orgEvent (e : XmlEvent) (he : orgEvent e = true) (s : PState) :
    (step s e).resPart = s.resPart := by
  obtain ⟨res, its, cri, ino, dfo, cur, fdo, fan⟩ := s
  cases e with
  | start name attrs =>
    obtain ⟨h4, h5⟩ : ¬ local_name name = "resource" ∧ ¬ local_name name = "file" := by
      simpa [orgEvent, Bool.and_eq_true, Bool.not_eq_true', beq_eq_false_iff_ne] using he
    by_cases h1 : local_name name = "organizations"
    · simp only [step, PState.orgPart, PState.resPart, if_pos h1]
    by_cases h2 : local_name name = "organization"
    · simp only [step, PState.orgPart, PState.resPart, if_neg h1, if_pos h2]
    by_cases h3 : local_name name = "item"
    · simp only [step, PState.orgPart, PState.resPart, if_neg h1, if_neg h2, if_pos h3]
      cases hga : get_attr attrs "identifier" <;>
        cases hgb : get_attr attrs "identifierref" <;> rfl
    · simp only [step, PState.orgPart, PState.resPart, if_neg h1, if_neg h2, if_neg h3, if_neg h4, if_neg h5]
  | emptyTag name attrs =>
    obtain ⟨h4, h5⟩ : ¬ local_name name = "resource" ∧ ¬ local_name name = "file" := by
      simpa [orgEvent, Bool.and_eq_true, Bool.not_eq_true', beq_eq_false_iff_ne] using he
    simp only [step, PState.orgPart, PState.resPart, if_neg h4, if_neg h5]
  | endTag name =>
    have h3 : ¬ local_name name = "resource" := by
      simpa [orgEvent, Bool.not_eq_true', beq_eq_false_iff_ne] using he
    by_cases h1 : local_name name = "organization"
    · simp only [step, PState.orgPart, PState.resPart, if_pos h1]
    by_cases h2 : local_name name = "organizations"
    · simp only [step, PState.orgPart, PState.resPart, if_neg h1, if_pos h2]
    · simp only [step, PState.orgPart, PState.resPart, if_neg h1, if_neg h2, if_neg h3]

theorem step_resPart_of_resEvent (f : XmlEvent) (hf : resEvent f = true) (s : PState) :
    (step s f).resPart = rstep s.resPart f := by
  obtain ⟨res, its, cri, ino, dfo, cur, fdo, fan⟩ := s
  cases f with
  | start name attrs =>
    obtain ⟨h1, h2, h3⟩ : ¬ local_name name = "organizations" ∧
        ¬ local_name name = "organization" ∧ ¬ local_name name = "item" := by
      simpa [resEvent, Bool.and_eq_true, Bool.not_eq_true', beq_eq_false_iff_ne,
        and_assoc] using hf
    by_cases h4 : local_name name = "resource"
    · simp only [step, rstep, PState.resPart, if_neg h1, if_neg h2, if_neg h3, if_pos h4]
      cases hga : get_attr attrs "identifier" <;> rfl
    by_cases h5 : local_name name = "file"
    · simp only [step, rstep, PState.resPart, if_neg h1, if_neg h2, if_neg h3, if_neg h4, if_pos h5]
      cases cri <;> cases hga : get_attr attrs "href" <;> rfl
    · simp only [step, rstep, PState.resPart, if_neg h1, if_neg h2, if_neg h3, if_neg h4, if_neg h5]
  | emptyTag name attrs =>
    by_cases h1 : local_name name = "resource"
    · simp only [step, rstep, PState.resPart, if_pos h1]
      cases hga : get_attr attrs "identifier" <;> rfl
    by_cases h2 : local_name name = "file"
    · simp only [step, rstep, PState.resPart, if_neg h1, if_pos h2]
      cases cri <;> cases hga : get_attr attrs "href" <;> rfl
    · simp only [step, rstep, PState.resPart, if_neg h1, if_neg h2]
  | endTag name =>
    obtain ⟨h1, h2⟩ : ¬ local_name name = "organization" ∧
        ¬ local_name name = "organizations" := by
      simpa [resEvent, Bool.and_eq_true, Bool.not_eq_true', beq_eq_false_iff_ne] using hf
    by_cases h3 : local_name name = "resource"
    · simp only [step, rstep, PState.resPart, if_neg h1, if_neg h2, if_pos h3]
    · simp only [step, rstep, PState.resPart, if_neg h1, if_neg h2, if_neg h3]

theorem step_orgPart_of_resEvent (f : XmlEvent) (hf : resEvent f = true) (s : PState) :
    (step s f).orgPart = s.orgPart := by
  obtain ⟨res, its, cri, ino, dfo, cur, fdo, fan⟩ := s
  cases f with
  | start name attrs =>
    obtain ⟨h1, h2, h3⟩ : ¬ local_name name = "organizations" ∧
        ¬ local_name name = "organization" ∧ ¬ local_name name = "item" := by
      simpa [resEvent, Bool.and_eq_true, Bool.not_eq_true', beq_eq_false_iff_ne,
        and_assoc] using hf
    by_cases h4 : local_name name = "resource"
    · simp only [step, PState.orgPart, PState.resPart, if_neg h1, if_neg h2, if_neg h3, if_pos h4]
      cases hga : get_attr attrs "identifier" <;> rfl
    by_cases h5 : local_name name = "file"
    · simp only [step, PState.orgPart, PState.resPart, if_neg h1, if_neg h2, if_neg h3, if_neg h4, if_pos h5]
      cases cri <;> cases hga : get_attr attrs "href" <;> rfl
    · simp only [step, PState.orgPart, PState.resPart, if_neg h1, if_neg h2, if_neg h3, if_neg h4, if_neg h5]
  | emptyTag name attrs =>
    by_cases h1 : local_name name = "resource"
    · simp only [step, PState.orgPart, PState.resPart, if_pos h1]
      cases hga : get_attr attrs "identifier" <;> rfl
    by_cases h2 : local_name name = "file"
    · simp only [step, PState.orgPart, PState.resPart, if_neg h1, if_pos h2]
      cases cri <;> cases hga : get_attr attrs "href" <;> rfl
    · simp only [step, PState.orgPart, PState.resPart, if_neg h1, if_neg h2]
  | endTag name =>
    obtain ⟨h1, h2⟩ : ¬ local_name name = "organization" ∧
        ¬ local_name name = "organizations" := by
      simpa [resEvent, Bool.and_eq_true, Bool.not_eq_true', beq_eq_false_iff_ne] using hf
    by_cases h3 : local_name name = "resource"
    · simp only [step, PState.orgPart, PState.resPart, if_neg h1, if_neg h2, if_pos h3]
    · simp only [step, PState.orgPart, PState.resPart, if_neg h1, if_neg h2, if_neg h3]

theorem step_comm (s : PState) (e f : XmlEvent)
    (he : orgEvent e = true) (hf : resEvent f = true) :
    step (step s e) f = step (step s f) e := by
  apply parts_ext
  · rw [step_orgPart_of_resEvent f hf, step_orgPart_of_orgEvent e he,
      step_orgPart_of_orgEvent e he, step_orgPart_of_resEvent f hf]
  · rw [step_resPart_of_resEvent f hf, step_resPart_of_orgEvent e he,
      step_resPart_of_orgEvent e he, step_resPart_of_resEvent f hf]

theorem foldl_step_res_comm (e : XmlEvent) (he : orgEvent e = true) :
    ∀ (R : List XmlEvent), (∀ f ∈ R, resEvent f = true) → ∀ s : PState,
      List.foldl step (step s e) R = step (List.foldl step s R) e := by
  intro R
  induction R with
  | nil => intro _ s; rfl
  | cons f R ih =>
    intro hall s
    simp only [List.foldl_cons]
    rw [step_comm s e f he (hall f (by simp))]
    exact ih (fun g hg => hall g (by simp [hg])) (step s f)

theorem foldl_orgres_comm :
    ∀ (O R : List XmlEvent), (∀ e ∈ O, orgEvent e = true) → (∀ f ∈ R, resEvent f = true) →
    ∀ s : PState, List.foldl step s (O ++ R) = List.foldl step s (R ++ O) := by
  intro O
  induction O with
  | nil => intro R _ _ s; simp
  | cons e O ih =>
    intro R hO hR s
    have h1 : List.foldl step s ((e :: O) ++ R) = List.foldl step (step s e) (O ++ R) := by
      simp [List.foldl_cons]
    rw [h1, ih R (fun g hg => hO g (by simp [hg])) hR (step s e)]
    rw [List.foldl_append, List.foldl_append]
    rw [foldl_step_res_comm e (hO e (by simp)) R hR s]
    simp [List.foldl_cons]

/-- C10: moving a block of organization-side events past a block of
resource-side events (in particular, moving the resources section
relative to the organizations section) does not change the parse result:
item-to-resource resolution happens only after the full streaming
pass. -/
theorem resources_position_invariant (pre O R post : List XmlEvent) (order : List String)
    (hO : ∀ e ∈ O, orgEvent e = true) (hR : ∀ f ∈ R, resEvent f = true) :
    parse_manifest (pre ++ O ++ R ++ post) order =
      parse_manifest (pre ++ R ++ O ++ post) order := by
  have hrun : runEvents (pre ++ O ++ R ++ post) = runEvents (pre ++ R ++ O ++ post) := by
    unfold runEvents
    have hc := foldl_orgres_comm O R hO hR (List.foldl step initState pre)
    simp only [List.foldl_append] at hc ⊢
    rw [hc]
  unfold parse_manifest
  rw [hrun]

end ScormCloud

namespace ScormCloud

/-- C10 witness: swapping concrete organizations and resources sections
leaves the parse result unchanged. -/
theorem resources_position_invariant_witness :
    parse_manifest ([] ++ exOrgSection ++ exResSection ++ []) ["R1"] =
      parse_manifest ([] ++ exResSection ++ exOrgSection ++ []) ["R1"] :=
  resources_position_invariant [] exOrgSection exResSection [] ["R1"]
    (by decide) (by decide)

end ScormCloud
